import Mathlib

/-!
Shallow embedding of the RedditTracker core (rank_detector.py, reply_detector.py,
database.py, status_calculator.py, processor.py, config.py) and proofs about it.

Machine-level conventions:
* Python `None` / absent attributes are `Option.none`; fallible operations
  (network fetches that may raise inside a `try`) are functions into `Option`.
* A Reddit listing entry is either a loaded `Comment` or a `MoreComments`
  pagination placeholder holding the comments it hides; PRAW's
  `replace_more(limit=0)` removes placeholders without fetching, while
  `replace_more(limit=None)` expands them in place (as used by
  `get_all_comments_flat`).
* Unix timestamps (`created_utc`, cutoffs) are integers; the ISO rendering of a
  timestamp is modelled by the timestamp itself (the rendering is injective).
-/

/-- `config.TOP_N_COMMENTS` -/
def TOP_N_COMMENTS : Nat := 5

/-- `config.REPLY_WINDOW_HOURS` -/
def REPLY_WINDOW_HOURS : Int := 72

/-- `config.OUTPUT_COLUMNS` -/
def OUTPUT_COLUMNS : List String := ["URL", "Status", "Present Rank", "Previous Rank"]

/-! ## Identity resolution (`RankDetector.extract_comment_id` / `extract_post_id`)

The two regexes are `/comments/([a-z0-9]+)` and
`/comments/[^/]+/[^/]+/([a-z0-9]+)`.  `re.search` tries each start offset left
to right; since `[^/]+` can never cross a `/`, greedy matching at a fixed
offset is deterministic, so the whole search is: first offset at which the
literal chain matches, capturing the maximal `[a-z0-9]+` run. -/

/-- The character class `[a-z0-9]` of both capture groups. -/
def isIdChar (c : Char) : Bool := ('a' ≤ c && c ≤ 'z') || ('0' ≤ c && c ≤ '9')

/-- The literal `/comments/` both patterns start with. -/
def commentsLit : List Char := "/comments/".toList

/-- Match `/comments/([a-z0-9]+)` anchored at the front of `s`. -/
def matchPostIdAt (s : List Char) : Option String :=
  if commentsLit.isPrefixOf s then
    let run := (s.drop commentsLit.length).takeWhile isIdChar
    if run.isEmpty then none else some (String.mk run)
  else none

/-- Match `/comments/[^/]+/[^/]+/([a-z0-9]+)` anchored at the front of `s`. -/
def matchCommentIdAt (s : List Char) : Option String :=
  if commentsLit.isPrefixOf s then
    let r1 := s.drop commentsLit.length
    let seg1 := r1.takeWhile (fun c => c ≠ '/')
    if seg1.isEmpty then none
    else
      match r1.drop seg1.length with
      | '/' :: r3 =>
        let seg2 := r3.takeWhile (fun c => c ≠ '/')
        if seg2.isEmpty then none
        else
          match r3.drop seg2.length with
          | '/' :: r5 =>
            let run := r5.takeWhile isIdChar
            if run.isEmpty then none else some (String.mk run)
          | _ => none
      | _ => none
  else none

/-- `re.search`: try the pattern at each start offset, left to right. -/
def reSearch (f : List Char → Option String) : List Char → Option String
  | [] => f []
  | c :: rest =>
    match f (c :: rest) with
    | some r => some r
    | none => reSearch f rest

/-- `RankDetector.extract_post_id` -/
def extract_post_id (url : String) : Option String :=
  reSearch matchPostIdAt url.toList

/-- `RankDetector.extract_comment_id` (also `ReplyDetector.extract_comment_id`,
which is the identical regex) -/
def extract_comment_id (url : String) : Option String :=
  reSearch matchCommentIdAt url.toList

/-! ## Comment snapshots and listings -/

/-- The fields of a praw `Comment` that `rank_detector.py` reads. `body` is an
`Option` because the code guards the tombstone test with `hasattr(, 'body')`. -/
structure RComment where
  id : String
  parent_id : String
  body : Option String
  deriving DecidableEq

/-- One entry of a Reddit comment listing: a loaded comment or a `MoreComments`
pagination placeholder holding the comments it collapses. -/
inductive Thing where
  | comment : RComment → Thing
  | more : List RComment → Thing
  deriving DecidableEq

/-- `replace_more(limit=0)` followed by the `isinstance(c, Comment)` filter:
placeholders are removed without being fetched. -/
def replaceMoreZero (l : List Thing) : List RComment :=
  l.filterMap fun t =>
    match t with
    | Thing.comment c => some c
    | Thing.more _ => none

/-- `replace_more(limit=None)` as used by `RankDetector.get_all_comments_flat`:
every placeholder is expanded in place, no comment of the source order is
dropped. -/
def replaceMoreNone (l : List Thing) : List RComment :=
  l.flatMap fun t =>
    match t with
    | Thing.comment c => [c]
    | Thing.more cs => cs

/-- The remote API surface `rank_detector.py` touches.  `none` models the call
raising inside the enclosing `try`. -/
structure Gateway where
  fetchComment : String → Option RComment
  topLevelListing : String → Option (List Thing)
  replyListing : String → Option (List Thing)

/-- `str.replace('t1_', '')`: drop every (non-overlapping, left-to-right)
occurrence of `t1_`. -/
def replace_t1 : List Char → List Char
  | 't' :: '1' :: '_' :: rest => replace_t1 rest
  | c :: rest => c :: replace_t1 rest
  | [] => []

/-- Python `str.startswith`, on character lists. -/
def startswith (pre s : String) : Bool :=
  pre.toList.isPrefixOf s.toList

/-- `RankDetector.get_parent_comment_id` -/
def get_parent_comment_id (parent_id : String) : Option String :=
  if startswith "t1_" parent_id then some (String.mk (replace_t1 parent_id.toList))
  else none

/-- `RankDetector.is_top_level_comment` -/
def is_top_level_comment (c : RComment) : Bool :=
  startswith "t3_" c.parent_id

/-- `RankDetector.get_top_level_comments_ordered`: fetch the listing, strip
placeholders with `replace_more(limit=0)`; any exception yields `[]`. -/
def get_top_level_comments_ordered (g : Gateway) (post_id : String) : List RComment :=
  match g.topLevelListing post_id with
  | some listing => replaceMoreZero listing
  | none => []

/-- `RankDetector.get_sibling_comments_ordered`: resolve the parent id, fetch
the parent comment, take its direct replies after `replace_more(limit=0)`; any
failure yields `([], None)`. -/
def get_sibling_comments_ordered (g : Gateway) (c : RComment) :
    List RComment × Option String :=
  match get_parent_comment_id c.parent_id with
  | none => ([], none)
  | some pid =>
    match g.fetchComment pid with
    | none => ([], none)
    | some _ =>
      match g.replyListing pid with
      | none => ([], none)
      | some listing => (replaceMoreZero listing, some pid)

/-- `RankDetector.find_comment_rank`: 1-based index of the first element with
the target id. -/
def find_comment_rank (target_id : String) : List RComment → Option Nat
  | [] => none
  | c :: rest =>
    if c.id = target_id then some 1
    else (find_comment_rank target_id rest).map (· + 1)

/-- The tombstone test of `detect_rank`:
`hasattr(c, 'body') and c.body in ['[deleted]', '[removed]']`. -/
def is_tombstone (c : RComment) : Bool :=
  match c.body with
  | some b => b = "[deleted]" || b = "[removed]"
  | none => false

/-- The comparison set `detect_rank` scans: full top-level list for a top-level
target, the parent's direct-reply list otherwise. -/
def comparison_set (g : Gateway) (post_id : String) (target : RComment) : List RComment :=
  if is_top_level_comment target then get_top_level_comments_ordered g post_id
  else (get_sibling_comments_ordered g target).1

/-- `detect_rank` after the target comment was fetched successfully: tombstone
check, comparison-set construction, emptiness check, linear scan, top-N cap. -/
def detect_rank_with_target (g : Gateway) (tid pid : String) (target : RComment) : String :=
  if is_tombstone target then "Out of Top 5"
  else
    let cs := comparison_set g pid target
    if cs.isEmpty then "Out of Top 5"
    else
      match find_comment_rank tid cs with
      | none => "Out of Top 5"
      | some rank => if rank ≤ TOP_N_COMMENTS then toString rank else "Out of Top 5"

/-- `detect_rank` after URL parsing succeeded: the target fetch (and
`refresh()`) raising is caught by the enclosing `try` and yields the sentinel. -/
def detect_rank_resolved (g : Gateway) (tid pid : String) : String :=
  match g.fetchComment tid with
  | none => "Out of Top 5"
  | some target => detect_rank_with_target g tid pid target

/-- `RankDetector.detect_rank` -/
def detect_rank (g : Gateway) (url : String) : String :=
  match extract_comment_id url, extract_post_id url with
  | some tid, some pid => detect_rank_resolved g tid pid
  | _, _ => "Out of Top 5"

/-! ## Tracking store (`database.py`)

One row per `comment_url`; the state is the lookup function of the
`comment_tracking` table. -/

/-- One row of `comment_tracking` (all columns after the key are nullable). -/
structure TrackingRecord where
  last_known_rank : Option String
  previous_rank : Option String
  last_checked_timestamp : String
  last_reply_timestamp : Option String
  deriving DecidableEq

/-- The table keyed by `comment_url`. -/
def DbState : Type := String → Option TrackingRecord

/-- A freshly initialised database. -/
def emptyDb : DbState := fun _ => none

/-- `Database.update_tracking_data`: read the existing row, keep the old
`last_reply_timestamp` when no new one is supplied, shift the old
`last_known_rank` into `previous_rank`, then upsert. -/
def update_tracking_data (db : DbState) (comment_url : String) (current_rank : String)
    (reply_timestamp : Option String) (now : String) : DbState :=
  let existing := db comment_url
  let last_reply : Option String :=
    match reply_timestamp with
    | some t => some t
    | none =>
      match existing with
      | some e => e.last_reply_timestamp
      | none => none
  let prev : Option String :=
    match existing with
    | some e => e.last_known_rank
    | none => none
  fun u =>
    if u = comment_url then
      some ⟨some current_rank, prev, now, last_reply⟩
    else db u

/-- `Database.has_rank_changed`: `False` for a never-tracked URL, otherwise
whether the stored rank differs from the new one (SQL `NULL` compares
unequal to any string, as in Python). -/
def has_rank_changed (db : DbState) (comment_url : String) (current_rank : String) : Bool :=
  match db comment_url with
  | none => false
  | some data => decide (data.last_known_rank ≠ some current_rank)

/-- A sequence of `update_tracking_data` calls on one URL; each element is
`(current_rank, reply_timestamp, call time)`. -/
def apply_updates (comment_url : String) :
    DbState → List (String × Option String × String) → DbState
  | db, [] => db
  | db, u :: rest =>
    apply_updates comment_url (update_tracking_data db comment_url u.1 u.2.1 u.2.2) rest

/-! ## Status classifier (`status_calculator.py`) and orchestrator (`processor.py`)

Result records are association lists so that the exact set of emitted fields is
observable.  `detect_rank`/`has_recent_reply` calls made by the orchestrator
are abstracted as per-URL oracles into `Option`; `none` models the call
raising (the enclosing `try` blocks decide what happens then). -/

/-- `StatusCalculator.calculate_status`: reads `has_rank_changed`, always
performs the update, then classifies.  Returns the status and the mutated
store. -/
def calculate_status (db : DbState) (comment_url current_rank : String)
    (has_recent : Bool) (reply_timestamp : Option String) (now : String) :
    String × DbState :=
  let rank_changed := has_rank_changed db comment_url current_rank
  let db2 := update_tracking_data db comment_url current_rank reply_timestamp now
  (if rank_changed && has_recent then "Ranking Changed + Reply Received"
   else if rank_changed then "Ranking Changed"
   else if has_recent then "Reply Received"
   else "No Change", db2)

/-- Python `dict.get` / record field lookup over an association list. -/
def assoc_get {β : Type} (key : String) : List (String × β) → Option β
  | [] => none
  | (k, v) :: rest => if k = key then some v else assoc_get key rest

/-- The record `process_single_comment` returns from its `except` branch. -/
def default_record (comment_url : String) : List (String × String) :=
  [("URL", comment_url), ("Status", "No Change"), ("Present Rank", "Out of Top 5")]

/-- `CommentProcessor.process_single_comment`: rank detection, reply detection,
status calculation; any exception yields the default record and leaves the
store untouched. -/
def process_single_comment (rank_of : String → Option String)
    (reply_of : String → Option (Bool × Option String))
    (db : DbState) (now : String) (comment_url : String) :
    List (String × String) × DbState :=
  match rank_of comment_url with
  | none => (default_record comment_url, db)
  | some current_rank =>
    match reply_of comment_url with
    | none => (default_record comment_url, db)
    | some (has_reply, reply_timestamp) =>
      let sd := calculate_status db comment_url current_rank has_reply reply_timestamp now
      ([("URL", comment_url), ("Status", sd.1), ("Present Rank", current_rank)], sd.2)

/-- `CommentProcessor.process_batch`: sequential loop, one record appended per
input URL. -/
def process_batch (rank_of : String → Option String)
    (reply_of : String → Option (Bool × Option String))
    (db : DbState) (now : String) :
    List String → List (List (String × String)) × DbState
  | [] => ([], db)
  | url :: rest =>
    let rd := process_single_comment rank_of reply_of db now url
    let br := process_batch rank_of reply_of rd.2 now rest
    (rd.1 :: br.1, br.2)

/-- Phase-1 value stored into `rank_results[url]`: the detected rank, or the
sentinel when `detect_rank` raised. -/
def par_rank_field (rank_of : String → Option String) (url : String) : String :=
  match rank_of url with
  | some r => r
  | none => "Out of Top 5"

/-- Phase 1 of `process_batch_parallel`: the `rank_results` dict, built
sequentially over the input order. -/
def rank_phase (rank_of : String → Option String) (urls : List String) :
    List (String × String) :=
  urls.map fun url => (url, par_rank_field rank_of url)

/-- The worker body `check_reply`: reply detection with the `(False, None)`
fallback on error. -/
def check_reply_task (reply_of : String → Option (Bool × Option String))
    (url : String) : Bool × Option String :=
  match reply_of url with
  | some p => p
  | none => (false, none)

/-- Phase 2 of `process_batch_parallel`: the `reply_results` dict, keyed by
URL, built in whatever order `as_completed` yields the futures (`arrivals`).
Duplicate keys carry equal values, so first-match lookup agrees with the
Python dict's last-write semantics. -/
def reply_phase (reply_of : String → Option (Bool × Option String))
    (arrivals : List String) : List (String × (Bool × Option String)) :=
  arrivals.map fun url => (url, check_reply_task reply_of url)

/-- Phase 3 of `process_batch_parallel`: walk the input order, look each URL up
in the two dicts with the documented defaults, classify, append. -/
def combine_phase (rank_results : List (String × String))
    (reply_results : List (String × (Bool × Option String))) (now : String) :
    DbState → List String → List (List (String × String)) × DbState
  | db, [] => ([], db)
  | db, url :: rest =>
    let rank := (assoc_get url rank_results).getD "Out of Top 5"
    let hr := (assoc_get url reply_results).getD (false, none)
    let sd := calculate_status db url rank hr.1 hr.2 now
    let br := combine_phase rank_results reply_results now sd.2 rest
    ([("URL", url), ("Status", sd.1), ("Present Rank", rank)] :: br.1, br.2)

/-- `CommentProcessor.process_batch_parallel`. -/
def process_batch_parallel (rank_of : String → Option String)
    (reply_of : String → Option (Bool × Option String))
    (db : DbState) (now : String) (urls arrivals : List String) :
    List (List (String × String)) × DbState :=
  combine_phase (rank_phase rank_of urls) (reply_phase reply_of arrivals) now db urls

/-- What a sequential-mode result record must satisfy for its input URL. -/
def seq_rank_field (rank_of : String → Option String)
    (reply_of : String → Option (Bool × Option String)) (url : String) : String :=
  match rank_of url, reply_of url with
  | some r, some _ => r
  | _, _ => "Out of Top 5"

/-- Pointwise contract of a sequential-mode record against its input URL. -/
def seq_record_ok (rank_of : String → Option String)
    (reply_of : String → Option (Bool × Option String))
    (rec : List (String × String)) (url : String) : Prop :=
  assoc_get "URL" rec = some url
  ∧ assoc_get "Present Rank" rec = some (seq_rank_field rank_of reply_of url)
  ∧ ((rank_of url = none ∨ reply_of url = none) → rec = default_record url)

/-- Pointwise contract of a staged-parallel record against its input URL. -/
def par_record_ok (rank_of : String → Option String)
    (rec : List (String × String)) (url : String) : Prop :=
  assoc_get "URL" rec = some url
  ∧ assoc_get "Present Rank" rec = some (par_rank_field rank_of url)

/-! ## Reply activity scanner (`reply_detector.py`)

A fetched comment with its (already expanded, as far as reachable) reply
subtree; `replace_more(limit=0)` inside the traversal only strips placeholder
entries, so the tree holds the reachable replies. -/

/-- A comment node: creation timestamp and direct replies. -/
inductive ReplyTree where
  | node : Int → List ReplyTree → ReplyTree

/-- `created_utc` of a node. -/
def ReplyTree.created_utc : ReplyTree → Int
  | node t _ => t

/-- Direct replies of a node. -/
def ReplyTree.replies : ReplyTree → List ReplyTree
  | node _ rs => rs

/-- The closure update
`if most is None or reply_time > most: most = reply_time`. -/
def bump (acc : Option Int) (t : Int) : Option Int :=
  match acc with
  | none => some t
  | some m => if m < t then some t else some m

/-- One loop iteration: bump the accumulator when
`reply_time >= cutoff_timestamp`. -/
def stepQ (cutoff : Int) (acc : Option Int) (t : Int) : Option Int :=
  if cutoff ≤ t then bump acc t else acc

/-- The `for reply in comment_obj.replies` loop of `check_replies`: per reply,
test its timestamp, then recurse into its own replies. -/
def check_replies_list (cutoff : Int) : Option Int → List ReplyTree → Option Int
  | acc, [] => acc
  | acc, ReplyTree.node t cs :: rs =>
    check_replies_list cutoff (check_replies_list cutoff (stepQ cutoff acc t) cs) rs

/-- `check_replies(comment_obj)`: scan the strict descendants of a node. -/
def check_replies (cutoff : Int) (acc : Option Int) (c : ReplyTree) : Option Int :=
  check_replies_list cutoff acc c.replies

/-- All timestamps of a forest in traversal order (each root, then its
subtree). -/
def allTimesList : List ReplyTree → List Int
  | [] => []
  | ReplyTree.node t cs :: rs => t :: (allTimesList cs ++ allTimesList rs)

/-- Timestamps of all strict descendants of a node. -/
def descTimes (c : ReplyTree) : List Int := allTimesList c.replies

/-- The tail of `has_recent_reply` once the comment is fetched: scan against
the cutoff `now - 72h`; the final `if most_recent_reply_time:` is Python float
truthiness, so a stored maximum of exactly `0` reports `(False, None)`. -/
def has_recent_reply_scan (now : Int) (root : ReplyTree) : Bool × Option Int :=
  match check_replies (now - REPLY_WINDOW_HOURS * 3600) none root with
  | some t => if t ≠ 0 then (true, some t) else (false, none)
  | none => (false, none)

/-- `ReplyDetector.has_recent_reply`: parse the URL, fetch the comment (a
failed fetch is caught and reports `(False, None)`), scan its subtree. -/
def has_recent_reply (fetch : String → Option ReplyTree) (now : Int)
    (comment_url : String) : Bool × Option Int :=
  match extract_comment_id comment_url with
  | none => (false, none)
  | some cid =>
    match fetch cid with
    | none => (false, none)
    | some root => has_recent_reply_scan now root

/-! ## Concrete instances used by witnesses and counterexamples -/

/-- A top-level comment ranked first on post `abc`. -/
def wA : RComment := ⟨"aaa", "t3_abc", some "first"⟩

/-- The tracked top-level target comment, ranked second on post `abc`. -/
def wT : RComment := ⟨"def", "t3_abc", some "target"⟩

/-- A deleted comment. -/
def wDel : RComment := ⟨"ddd", "t3_abc", some "[deleted]"⟩

/-- A reply whose parent comment cannot be fetched. -/
def wR : RComment := ⟨"rrr", "t1_par", some "reply"⟩

/-- Comment fetch of the witness gateway. -/
def wFetch : String → Option RComment := fun i =>
  if i = "def" then some wT
  else if i = "ddd" then some wDel
  else if i = "rrr" then some wR
  else none

/-- Top-level listing of the witness gateway: post `abc` has `[wA, wT]`. -/
def wTop : String → Option (List Thing) := fun p =>
  if p = "abc" then some [Thing.comment wA, Thing.comment wT] else none

/-- Reply listings of the witness gateway (none resolvable). -/
def wRep : String → Option (List Thing) := fun _ => none

/-- The witness gateway. -/
def wGateway : Gateway := ⟨wFetch, wTop, wRep⟩

/-- URL of the target comment `def` on post `abc`. -/
def wUrl : String := "/comments/abc/title/def"

/-- URL of the deleted comment `ddd`. -/
def wUrlDel : String := "/comments/abc/title/ddd"

/-- URL of a comment the gateway cannot resolve. -/
def wUrlMissing : String := "/comments/abc/title/zzz"

/-- URL of the reply `rrr` whose parent is unresolvable. -/
def wUrlReply : String := "/comments/abc/title/rrr"

/-- A reference with a post segment but no comment segment. -/
def wUrlNoComment : String := "/comments/abc"

/-- A comment hidden behind a `MoreComments` placeholder on post `abc`. -/
def cB : RComment := ⟨"hid1", "t3_abc", some "hidden"⟩

/-- A top-level listing whose second entry is an unexpanded placeholder. -/
def truncListing : List Thing := [Thing.comment wA, Thing.more [cB]]

/-- Gateway whose post `abc` listing contains a placeholder hiding `cB`. -/
def truncGateway : Gateway :=
  ⟨fun i => if i = "hid1" then some cB else none,
   fun p => if p = "abc" then some truncListing else none,
   fun _ => none⟩

/-- URL of the hidden comment `hid1`. -/
def truncUrl : String := "/comments/abc/title/hid1"

/-- Two updates to one URL: rank 3 then rank 1, no reply evidence. -/
def wUpdates : List (String × Option String × String) :=
  [("3", none, "t1"), ("1", none, "t2")]

/-- A store tracking URL `u` at rank 3. -/
def wDb : DbState := update_tracking_data emptyDb "u" "3" none "t0"

/-- A store whose URL `u` carries a stored reply timestamp. -/
def cexDb : DbState :=
  update_tracking_data emptyDb "u" "1" (some "2023-06-01T00:00:00") "t1"

/-- A subtree where only the grandchild reply, at epoch timestamp 0,
is at or above the cutoff. -/
def cexTree : ReplyTree := ReplyTree.node 999 [ReplyTree.node (-10) [ReplyTree.node 0 []]]

/-- Fetch for the zero-epoch counterexample. -/
def cexFetch : String → Option ReplyTree := fun i =>
  if i = "def" then some cexTree else none

/-- A subtree where only the grandchild reply (timestamp 60) is recent. -/
def wTree : ReplyTree := ReplyTree.node 999 [ReplyTree.node 10 [ReplyTree.node 60 []]]

/-- Fetch for the reply-scanner witness. -/
def wReplyFetch : String → Option ReplyTree := fun i =>
  if i = "def" then some wTree else none

/-- Rank oracle that fails on `u2` and ranks everything else 3. -/
def wRankO : String → Option String := fun u => if u = "u2" then none else some "3"

/-- Reply oracle that always succeeds with no recent reply. -/
def wReplyO : String → Option (Bool × Option String) := fun _ => some (false, none)

/-! ## Rank-detector lemmas -/

theorem detect_rank_parse (g : Gateway) (url tid pid : String)
    (hc : extract_comment_id url = some tid) (hp : extract_post_id url = some pid) :
    detect_rank g url = detect_rank_resolved g tid pid := by
  unfold detect_rank
  rw [hc, hp]

theorem find_comment_rank_of_first (tid : String) :
    ∀ (cs : List RComment) (p : Nat), 1 ≤ p →
      (cs.map RComment.id).get? (p - 1) = some tid →
      (∀ j, j < p - 1 → (cs.map RComment.id).get? j ≠ some tid) →
      find_comment_rank tid cs = some p := by
  intro cs
  induction cs with
  | nil => intro p _ h2 _; simp at h2
  | cons c rest ih =>
    intro p h1 h2 h3
    by_cases hc : c.id = tid
    · have hp1 : p = 1 := by
        by_contra hne
        have h0 := h3 0 (by omega)
        simp [hc] at h0
      subst hp1
      simp [find_comment_rank, hc]
    · have hp2 : 2 ≤ p := by
        rcases Nat.lt_or_ge p 2 with h | h
        · have : p = 1 := by omega
          subst this
          simp at h2
          exact (hc h2).elim
        · exact h
      obtain ⟨q, rfl⟩ : ∃ q, p = q + 2 := ⟨p - 2, by omega⟩
      have h2' : (rest.map RComment.id).get? (q + 1 - 1) = some tid := by
        have : q + 2 - 1 = (q + 1 - 1) + 1 := by omega
        rw [this] at h2
        simpa using h2
      have h3' : ∀ j, j < q + 1 - 1 → (rest.map RComment.id).get? j ≠ some tid := by
        intro j hj
        have := h3 (j + 1) (by omega)
        simpa using this
      have := ih (q + 1) (by omega) h2' h3'
      simp [find_comment_rank, hc, this]

theorem find_comment_rank_absent (tid : String) :
    ∀ cs : List RComment, (∀ c ∈ cs, c.id ≠ tid) → find_comment_rank tid cs = none := by
  intro cs
  induction cs with
  | nil => intro _; rfl
  | cons c rest ih =>
    intro h
    have hc : c.id ≠ tid := h c (by simp)
    have := ih fun x hx => h x (by simp [hx])
    simp [find_comment_rank, hc, this]

theorem detect_rank_fetched (g : Gateway) (url tid pid : String) (target : RComment)
    (hc : extract_comment_id url = some tid) (hp : extract_post_id url = some pid)
    (hf : g.fetchComment tid = some target) :
    detect_rank g url = detect_rank_with_target g tid pid target := by
  rw [detect_rank_parse g url tid pid hc hp]
  unfold detect_rank_resolved
  rw [hf]

/-- **C1**: when `detect_rank` resolves a target that sits at 1-based position
`p` of its comparison set, it reports the literal rank `str(p)` if
`p ≤ TOP_N_COMMENTS` and the sentinel otherwise; when the target id occurs
nowhere in the comparison set it reports the sentinel. -/
theorem detect_rank_reports_position (g : Gateway) (url tid pid : String)
    (target : RComment) (cs : List RComment)
    (hc : extract_comment_id url = some tid)
    (hp : extract_post_id url = some pid)
    (hf : g.fetchComment tid = some target)
    (ht : is_tombstone target = false)
    (hcs : comparison_set g pid target = cs) :
    (∀ p : Nat, 1 ≤ p →
        (cs.map RComment.id).get? (p - 1) = some tid →
        (∀ j, j < p - 1 → (cs.map RComment.id).get? j ≠ some tid) →
        detect_rank g url = if p ≤ TOP_N_COMMENTS then toString p else "Out of Top 5")
    ∧ ((∀ c ∈ cs, c.id ≠ tid) → detect_rank g url = "Out of Top 5") := by
  have hd : detect_rank g url = detect_rank_with_target g tid pid target :=
    detect_rank_fetched g url tid pid target hc hp hf
  constructor
  · intro p h1 h2 h3
    have hfind := find_comment_rank_of_first tid cs p h1 h2 h3
    have hne : cs.isEmpty = false := by
      cases cs with
      | nil => simp at h2
      | cons a l => rfl
    rw [hd]
    unfold detect_rank_with_target
    simp only [ht, Bool.false_eq_true, if_false, hcs, hne, hfind]
  · intro habs
    have hfind := find_comment_rank_absent tid cs habs
    rw [hd]
    unfold detect_rank_with_target
    simp only [ht, Bool.false_eq_true, if_false, hcs, hfind]
    cases cs with
    | nil => rfl
    | cons a l => rfl

/-- Witness for C1: the target `def` is second of two top-level comments on
post `abc`, so `detect_rank` reports `"2"`; and a gateway-absent id reports
the sentinel. -/
theorem detect_rank_reports_position_witness :
    detect_rank wGateway wUrl = "2" := by
  have h := (detect_rank_reports_position wGateway wUrl "def" "abc" wT [wA, wT]
    rfl rfl rfl rfl (by decide)).1 2 (by decide) (by decide) (by decide)
  rw [if_pos (by decide : 2 ≤ TOP_N_COMMENTS)] at h
  exact h

/-- **C7**: a target whose body is a tombstone marker (which is how a deleted
comment surfaces in the gateway's data model) makes `detect_rank` return the
sentinel immediately; the top-level and reply listings of the gateway are
universally quantified, so no comparison set is consulted. -/
theorem detect_rank_tombstone_short_circuit
    (fc : String → Option RComment) (tl rl : String → Option (List Thing))
    (url tid pid : String) (target : RComment)
    (hc : extract_comment_id url = some tid)
    (hp : extract_post_id url = some pid)
    (hf : fc tid = some target)
    (hd : target.body = some "[deleted]" ∨ target.body = some "[removed]") :
    detect_rank ⟨fc, tl, rl⟩ url = "Out of Top 5" := by
  have ht : is_tombstone target = true := by
    unfold is_tombstone
    rcases hd with h | h <;> rw [h] <;> simp
  rw [detect_rank_fetched ⟨fc, tl, rl⟩ url tid pid target hc hp hf]
  unfold detect_rank_with_target
  simp [ht]

/-- Witness for C7: the deleted comment `ddd` reports the sentinel. -/
theorem detect_rank_tombstone_short_circuit_witness :
    detect_rank ⟨wFetch, wTop, wRep⟩ wUrlDel = "Out of Top 5" :=
  detect_rank_tombstone_short_circuit wFetch wTop wRep wUrlDel "ddd" "abc" wDel
    rfl rfl rfl (Or.inl rfl)

/-- **C8**: `detect_rank` is a total function into strings (the embedding has
no failure channel, mirroring the `try`/`except` that converts every raised
error), and each per-item failure mode — unparseable reference, unresolvable
target, unobtainable/empty comparison set — yields the terminal sentinel. -/
theorem detect_rank_never_raises (g : Gateway) (url : String) :
    ((extract_comment_id url = none ∨ extract_post_id url = none) →
        detect_rank g url = "Out of Top 5")
    ∧ (∀ tid pid, extract_comment_id url = some tid → extract_post_id url = some pid →
        g.fetchComment tid = none → detect_rank g url = "Out of Top 5")
    ∧ (∀ tid pid target, extract_comment_id url = some tid →
        extract_post_id url = some pid → g.fetchComment tid = some target →
        comparison_set g pid target = [] → detect_rank g url = "Out of Top 5") := by
  refine ⟨?_, ?_, ?_⟩
  · intro h
    unfold detect_rank
    rcases h with h | h
    · cases hx : extract_post_id url <;> simp [h, hx]
    · cases hx : extract_comment_id url <;> simp [h, hx]
  · intro tid pid h1 h2 h3
    rw [detect_rank_parse g url tid pid h1 h2]
    unfold detect_rank_resolved
    rw [h3]
  · intro tid pid target h1 h2 h3 h4
    rw [detect_rank_fetched g url tid pid target h1 h2 h3]
    unfold detect_rank_with_target
    by_cases ht : is_tombstone target
    · simp [ht]
    · simp [ht, h4]

/-- Witness for C8: a reference without a comment segment, a target the
gateway cannot resolve, and a reply whose parent is unresolvable (empty
comparison set) all yield the sentinel. -/
theorem detect_rank_never_raises_witness :
    detect_rank wGateway wUrlNoComment = "Out of Top 5"
    ∧ detect_rank wGateway wUrlMissing = "Out of Top 5"
    ∧ detect_rank wGateway wUrlReply = "Out of Top 5" :=
  ⟨(detect_rank_never_raises wGateway wUrlNoComment).1 (Or.inl (by decide)),
   (detect_rank_never_raises wGateway wUrlMissing).2.1 "zzz" "abc"
     (by decide) (by decide) rfl,
   (detect_rank_never_raises wGateway wUrlReply).2.2 "rrr" "abc" wR
     (by decide) (by decide) rfl (by decide)⟩

/-- **C2** (refutation / failing input): `get_top_level_comments_ordered`
builds the comparison set with `replace_more(limit=0)`, which deletes the
pagination placeholder instead of expanding it, so the hidden comment `cB`
is missing from the scanned list even though the fully expanded source order
(`replace_more(limit=None)` as in `get_all_comments_flat`) contains it at
position 2 ≤ top-N; `detect_rank` therefore reports a false "not found". -/
theorem get_top_level_truncates_more :
    get_top_level_comments_ordered truncGateway "abc" = [wA]
    ∧ replaceMoreNone truncListing = [wA, cB]
    ∧ find_comment_rank "hid1" (replaceMoreNone truncListing) = some 2
    ∧ 2 ≤ TOP_N_COMMENTS
    ∧ detect_rank truncGateway truncUrl = "Out of Top 5" :=
  ⟨by decide, by decide, by decide, by decide, by decide⟩

/-! ## Tracking-store lemmas -/

theorem update_tracking_data_self (db : DbState) (url r : String) (t : Option String)
    (n : String) :
    ∃ rec, update_tracking_data db url r t n url = some rec
      ∧ rec.last_known_rank = some r
      ∧ rec.previous_rank = (db url).bind TrackingRecord.last_known_rank
      ∧ rec.last_reply_timestamp =
          (match t with
           | some x => some x
           | none => (db url).bind TrackingRecord.last_reply_timestamp) := by
  refine ⟨⟨some r, (db url).bind TrackingRecord.last_known_rank, n,
    match t with
    | some x => some x
    | none => (db url).bind TrackingRecord.last_reply_timestamp⟩, ?_, rfl, rfl, rfl⟩
  unfold update_tracking_data
  cases hdb : db url <;> cases t <;> simp [hdb]

theorem apply_updates_append (url : String) (l1 l2 : List (String × Option String × String)) :
    ∀ db : DbState,
      apply_updates url db (l1 ++ l2) = apply_updates url (apply_updates url db l1) l2 := by
  induction l1 with
  | nil => intro db; rfl
  | cons u rest ih =>
    intro db
    rw [List.cons_append]
    exact ih (update_tracking_data db url u.1 u.2.1 u.2.2)

/-- **C3**: in any update sequence on one URL, the `previous_rank` stored after
the first `k` updates equals the `last_known_rank` the store held after the
first `k-1` updates (i.e. the `current_rank` that resulted from update `k-1`);
for a never-tracked URL the first update leaves `previous_rank` empty.
`previous_rank` is produced only by this shift, never recomputed. -/
theorem previous_rank_shift_invariant (db0 : DbState) (comment_url : String)
    (us : List (String × Option String × String)) (k : Nat)
    (h0 : db0 comment_url = none) (h1 : 1 ≤ k) (h2 : k ≤ us.length) :
    ∃ rec, apply_updates comment_url db0 (us.take k) comment_url = some rec
      ∧ rec.previous_rank =
          (apply_updates comment_url db0 (us.take (k - 1)) comment_url).bind
            TrackingRecord.last_known_rank
      ∧ (k = 1 → rec.previous_rank = none) := by
  obtain ⟨q, rfl⟩ : ∃ q, k = q + 1 := ⟨k - 1, by omega⟩
  have hq : q < us.length := by omega
  obtain ⟨u, hu⟩ : ∃ u, us[q]? = some u := by
    cases hx : us[q]? with
    | none =>
      rw [List.getElem?_eq_none_iff] at hx
      omega
    | some v => exact ⟨v, rfl⟩
  have htake : us.take (q + 1) = us.take q ++ [u] := by
    rw [List.take_succ, hu]
    rfl
  have hk1 : q + 1 - 1 = q := by omega
  have hstep : ∀ dbx : DbState, apply_updates comment_url dbx [u]
      = update_tracking_data dbx comment_url u.1 u.2.1 u.2.2 := fun _ => rfl
  rw [htake, hk1, apply_updates_append, hstep]
  obtain ⟨rec, hrec, _, hprev, _⟩ :=
    update_tracking_data_self (apply_updates comment_url db0 (us.take q))
      comment_url u.1 u.2.1 u.2.2
  refine ⟨rec, hrec, hprev, ?_⟩
  intro hk
  have hq0 : q = 0 := by omega
  subst hq0
  rw [hprev, List.take_zero]
  show (db0 comment_url).bind TrackingRecord.last_known_rank = none
  rw [h0]
  rfl

/-- Witness for C3: after updating URL `u` with rank 3 then rank 1 from an
empty store, `previous_rank` equals the `last_known_rank` produced by the
first update. -/
theorem previous_rank_shift_invariant_witness :
    ∃ rec, apply_updates "u" emptyDb (wUpdates.take 2) "u" = some rec
      ∧ rec.previous_rank =
          (apply_updates "u" emptyDb (wUpdates.take (2 - 1)) "u").bind
            TrackingRecord.last_known_rank
      ∧ (2 = 1 → rec.previous_rank = none) :=
  previous_rank_shift_invariant emptyDb "u" wUpdates 2 rfl (by decide) (by decide)

/-- **C5** (refutation): an update that carries a non-empty reply timestamp
overwrites the stored `last_reply_timestamp` unconditionally, so a strictly
older timestamp (ISO-8601 strings compare chronologically in lexicographic
character order) moves the stored value backwards. -/
theorem last_reply_regress_cex :
    ((cexDb "u").bind TrackingRecord.last_reply_timestamp
        = some "2023-06-01T00:00:00")
    ∧ ((update_tracking_data cexDb "u" "1" (some "2020-01-01T00:00:00") "t2" "u").bind
        TrackingRecord.last_reply_timestamp = some "2020-01-01T00:00:00")
    ∧ List.Lex (· < ·) "2020-01-01T00:00:00".toList "2023-06-01T00:00:00".toList :=
  ⟨rfl, rfl,
   List.Lex.cons (List.Lex.cons (List.Lex.cons (List.Lex.rel (by decide))))⟩

/-- **C5** (amended): an update with an *empty* reply timestamp preserves the
stored `last_reply_timestamp` exactly; an update with a non-empty timestamp
overwrites it with that value unconditionally (so monotonicity holds for
empty-timestamp updates only). -/
theorem last_reply_preserved_on_empty (db : DbState) (comment_url current_rank now : String) :
    ((update_tracking_data db comment_url current_rank none now comment_url).bind
        TrackingRecord.last_reply_timestamp
      = (db comment_url).bind TrackingRecord.last_reply_timestamp)
    ∧ (∀ t : String,
        (update_tracking_data db comment_url current_rank (some t) now comment_url).bind
          TrackingRecord.last_reply_timestamp = some t) := by
  constructor
  · obtain ⟨rec, hrec, _, _, hlr⟩ :=
      update_tracking_data_self db comment_url current_rank none now
    rw [hrec]
    exact hlr
  · intro t
    obtain ⟨rec, hrec, _, _, hlr⟩ :=
      update_tracking_data_self db comment_url current_rank (some t) now
    rw [hrec]
    exact hlr

/-- **C6**: `has_rank_changed` returns `false` for a never-tracked URL and
otherwise reports exactly whether the stored (pre-update) rank differs from
the new one. -/
theorem has_rank_changed_spec (db : DbState) (comment_url new_rank : String) :
    (db comment_url = none → has_rank_changed db comment_url new_rank = false)
    ∧ (∀ rec, db comment_url = some rec →
        (has_rank_changed db comment_url new_rank = true
          ↔ rec.last_known_rank ≠ some new_rank)) := by
  constructor
  · intro h
    unfold has_rank_changed
    rw [h]
  · intro rec h
    unfold has_rank_changed
    rw [h]
    simp

/-- Witness for C6: a never-tracked URL reports no change; a URL stored at
rank 3 reports a change against new rank 1. -/
theorem has_rank_changed_spec_witness :
    has_rank_changed emptyDb "u" "1" = false
    ∧ (has_rank_changed wDb "u" "1" = true
        ↔ (TrackingRecord.mk (some "3") none "t0" none).last_known_rank ≠ some "1") :=
  ⟨(has_rank_changed_spec emptyDb "u" "1").1 rfl,
   (has_rank_changed_spec wDb "u" "1").2 (TrackingRecord.mk (some "3") none "t0" none)
     (by decide)⟩

/-! ## Orchestrator lemmas -/

/-- **C9** (failing input): every record `process_single_comment` emits has
exactly the keys `URL`, `Status`, `Present Rank` — the `Previous Rank` field
demanded by the repository's own `OUTPUT_COLUMNS` export contract is missing
from it.  (The rank value itself is the sentinel string or the literal
number, as it is passed through from `detect_rank` unchanged.) -/
theorem process_single_comment_missing_previous_rank
    (rank_of : String → Option String)
    (reply_of : String → Option (Bool × Option String))
    (db : DbState) (now comment_url : String) :
    ((process_single_comment rank_of reply_of db now comment_url).1.map Prod.fst
        = ["URL", "Status", "Present Rank"])
    ∧ OUTPUT_COLUMNS = ["URL", "Status", "Present Rank", "Previous Rank"]
    ∧ (((process_single_comment rank_of reply_of db now comment_url).1.map
        Prod.fst).contains "Previous Rank") = false := by
  unfold process_single_comment
  cases rank_of comment_url with
  | none => exact ⟨rfl, rfl, rfl⟩
  | some r =>
    cases reply_of comment_url with
    | none => exact ⟨rfl, rfl, rfl⟩
    | some p => exact ⟨rfl, rfl, rfl⟩

theorem assoc_get_map_self {β : Type} (f : String → β) (url : String) :
    ∀ urls : List String, url ∈ urls →
      assoc_get url (urls.map fun u => (u, f u)) = some (f url) := by
  intro urls
  induction urls with
  | nil => intro h; simp at h
  | cons v rest ih =>
    intro h
    rw [List.map_cons]
    unfold assoc_get
    by_cases hv : v = url
    · subst hv
      simp
    · rw [if_neg hv]
      rcases List.mem_cons.mp h with h1 | h2
      · exact absurd h1.symm hv
      · exact ih h2

theorem process_batch_forall2 (rank_of : String → Option String)
    (reply_of : String → Option (Bool × Option String)) (now : String) :
    ∀ (urls : List String) (db : DbState),
      List.Forall₂ (seq_record_ok rank_of reply_of)
        (process_batch rank_of reply_of db now urls).1 urls := by
  intro urls
  induction urls with
  | nil => intro db; exact List.Forall₂.nil
  | cons url rest ih =>
    intro db
    refine List.Forall₂.cons ?_ (ih _)
    unfold seq_record_ok seq_rank_field process_single_comment
    cases hr : rank_of url with
    | none => exact ⟨rfl, rfl, fun _ => rfl⟩
    | some r =>
      cases hy : reply_of url with
      | none => exact ⟨rfl, rfl, fun _ => rfl⟩
      | some p =>
        refine ⟨rfl, rfl, ?_⟩
        intro hcon
        rcases hcon with h | h
        · exact absurd h (by simp)
        · exact absurd h (by simp)

theorem combine_phase_forall2 (rank_of : String → Option String)
    (reply_results : List (String × (Bool × Option String))) (now : String)
    (urls : List String) :
    ∀ (iter : List String) (db : DbState), (∀ u ∈ iter, u ∈ urls) →
      List.Forall₂ (par_record_ok rank_of)
        (combine_phase (rank_phase rank_of urls) reply_results now db iter).1 iter := by
  intro iter
  induction iter with
  | nil => intro db _; exact List.Forall₂.nil
  | cons url rest ih =>
    intro db hmem
    refine List.Forall₂.cons ?_ (ih _ fun u hu => hmem u (by simp [hu]))
    have hget : assoc_get url (rank_phase rank_of urls) = some (par_rank_field rank_of url) :=
      assoc_get_map_self (par_rank_field rank_of) url urls (hmem url (by simp))
    unfold par_record_ok
    rw [hget]
    exact ⟨rfl, rfl⟩

/-- **C10**: both batch modes return exactly one record per input URL, in the
input order (regardless of the order `arrivals` in which the parallel reply
workers complete); the URL field matches the input, the rank field carries
the computed rank or the `"Out of Top 5"` safe default when that identity's
detection failed, and in sequential mode a failed identity yields exactly the
default record. -/
theorem process_batch_one_record_each (rank_of : String → Option String)
    (reply_of : String → Option (Bool × Option String))
    (db : DbState) (now : String) (urls arrivals : List String) :
    List.Forall₂ (seq_record_ok rank_of reply_of)
        (process_batch rank_of reply_of db now urls).1 urls
    ∧ List.Forall₂ (par_record_ok rank_of)
        (process_batch_parallel rank_of reply_of db now urls arrivals).1 urls
    ∧ (process_batch rank_of reply_of db now urls).1.length = urls.length
    ∧ (process_batch_parallel rank_of reply_of db now urls arrivals).1.length
        = urls.length := by
  have h1 := process_batch_forall2 rank_of reply_of now urls db
  have h2 := combine_phase_forall2 rank_of (reply_phase reply_of arrivals) now urls urls db
    (fun _ hu => hu)
  exact ⟨h1, h2, h1.length_eq, h2.length_eq⟩

/-- Witness for C10: a two-URL batch whose second identity fails rank
detection still yields two records in input order in both modes. -/
theorem process_batch_one_record_each_witness :
    List.Forall₂ (seq_record_ok wRankO wReplyO)
        (process_batch wRankO wReplyO emptyDb "t0" ["u1", "u2"]).1 ["u1", "u2"]
    ∧ List.Forall₂ (par_record_ok wRankO)
        (process_batch_parallel wRankO wReplyO emptyDb "t0" ["u1", "u2"]
          ["u2", "u1"]).1 ["u1", "u2"]
    ∧ (process_batch wRankO wReplyO emptyDb "t0" ["u1", "u2"]).1.length = 2
    ∧ (process_batch_parallel wRankO wReplyO emptyDb "t0" ["u1", "u2"]
        ["u2", "u1"]).1.length = 2 :=
  process_batch_one_record_each wRankO wReplyO emptyDb "t0" ["u1", "u2"] ["u2", "u1"]

/-! ## Reply-scanner lemmas -/

theorem has_recent_reply_fetched (fetch : String → Option ReplyTree) (now : Int)
    (comment_url cid : String) (root : ReplyTree)
    (hc : extract_comment_id comment_url = some cid)
    (hf : fetch cid = some root) :
    has_recent_reply fetch now comment_url = has_recent_reply_scan now root := by
  unfold has_recent_reply
  rw [hc]
  show (match fetch cid with
        | none => (false, none)
        | some root => has_recent_reply_scan now root) = has_recent_reply_scan now root
  rw [hf]

theorem check_replies_list_eq (cutoff : Int) (acc : Option Int) (rs : List ReplyTree) :
    check_replies_list cutoff acc rs = List.foldl (stepQ cutoff) acc (allTimesList rs) := by
  match rs with
  | [] => simp [check_replies_list, allTimesList]
  | ReplyTree.node t cs :: rs' =>
    rw [check_replies_list, allTimesList, List.foldl_cons, List.foldl_append,
      check_replies_list_eq cutoff (stepQ cutoff acc t) cs,
      check_replies_list_eq cutoff _ rs']
termination_by sizeOf rs

theorem foldl_stepQ_eq_filter (cutoff : Int) :
    ∀ (l : List Int) (acc : Option Int),
      List.foldl (stepQ cutoff) acc l
        = List.foldl bump acc (l.filter fun t => cutoff ≤ t) := by
  intro l
  induction l with
  | nil => intro acc; rfl
  | cons t l ih =>
    intro acc
    by_cases h : cutoff ≤ t
    · rw [List.foldl_cons, List.filter_cons_of_pos (by simpa using h), List.foldl_cons, ih]
      unfold stepQ
      rw [if_pos h]
    · rw [List.foldl_cons, List.filter_cons_of_neg (by simpa using h), ih]
      unfold stepQ
      rw [if_neg h]

theorem foldl_bump_some (l : List Int) :
    ∀ a : Int, List.foldl bump (some a) l = some (List.foldl max a l) := by
  induction l with
  | nil => intro a; rfl
  | cons t l ih =>
    intro a
    have hb : bump (some a) t = some (max a t) := by
      show (if a < t then some t else some a) = some (max a t)
      rcases lt_or_ge a t with h | h
      · rw [if_pos h, max_eq_right h.le]
      · rw [if_neg (not_lt.mpr h), max_eq_left h]
    rw [List.foldl_cons, hb, ih, List.foldl_cons]

theorem foldl_max_eq (m : Int) :
    ∀ (l : List Int) (a : Int), a ≤ m → (a = m ∨ m ∈ l) → (∀ t ∈ l, t ≤ m) →
      List.foldl max a l = m := by
  intro l
  induction l with
  | nil =>
    intro a _ hor _
    rcases hor with h | h
    · exact h
    · simp at h
  | cons t l ih =>
    intro a ha hor hall
    rw [List.foldl_cons]
    refine ih (max a t) (max_le ha (hall t (by simp))) ?_ (fun x hx => hall x (by simp [hx]))
    rcases hor with h | h
    · subst h
      left
      exact max_eq_left (hall t (by simp))
    · rcases List.mem_cons.mp h with h1 | h2
      · subst h1
        left
        exact max_eq_right ha
      · right
        exact h2

theorem foldl_bump_max (l : List Int) (m : Int) (hm : m ∈ l) (hb : ∀ t ∈ l, t ≤ m) :
    List.foldl bump none l = some m := by
  cases l with
  | nil => simp at hm
  | cons q rest =>
    have hq : bump none q = some q := rfl
    rw [List.foldl_cons, hq, foldl_bump_some]
    congr 1
    refine foldl_max_eq m rest q (hb q (by simp)) ?_ (fun t ht => hb t (by simp [ht]))
    rcases List.mem_cons.mp hm with h | h
    · left
      exact h.symm
    · right
      exact h

/-- **C4** (amended): if some strict descendant of the target's reply subtree
has a timestamp at or above `now - 72h` and the maximum such timestamp `m` is
nonzero, `has_recent_reply` returns `(true, m)` — in particular when only a
grandchild qualifies, `m` is the grandchild's timestamp.  (The nonzero proviso
is forced by the code's final truthiness test, refuted separately.) -/
theorem has_recent_reply_reports_max (fetch : String → Option ReplyTree) (now : Int)
    (comment_url cid : String) (root : ReplyTree) (m : Int)
    (hc : extract_comment_id comment_url = some cid)
    (hf : fetch cid = some root)
    (hm : m ∈ (descTimes root).filter fun t => now - REPLY_WINDOW_HOURS * 3600 ≤ t)
    (hb : ∀ t ∈ (descTimes root).filter fun t => now - REPLY_WINDOW_HOURS * 3600 ≤ t,
        t ≤ m)
    (hnz : m ≠ 0) :
    has_recent_reply fetch now comment_url = (true, some m) := by
  rw [has_recent_reply_fetched fetch now comment_url cid root hc hf]
  unfold has_recent_reply_scan check_replies
  unfold descTimes at hm hb
  rw [check_replies_list_eq, foldl_stepQ_eq_filter, foldl_bump_max _ m hm hb]
  simp [hnz]

/-- **C4** (refutation of the claim as stated): with `now` exactly 72 hours
past the epoch the cutoff is 0, a grandchild reply created at timestamp 0 is
at the cutoff, yet `has_recent_reply` reports `(False, None)` because the
final `if most_recent_reply_time:` treats the float `0.0` as falsy. -/
theorem has_recent_reply_zero_epoch_cex :
    (259200 - REPLY_WINDOW_HOURS * 3600 = (0 : Int))
    ∧ (0 : Int) ∈ descTimes cexTree
    ∧ (259200 - REPLY_WINDOW_HOURS * 3600 ≤ (0 : Int))
    ∧ has_recent_reply cexFetch 259200 wUrl = (false, none) := by
  have hdt : descTimes cexTree = [-10, 0] := by
    simp [descTimes, cexTree, ReplyTree.replies, allTimesList]
  refine ⟨by decide, by rw [hdt]; decide, by decide, ?_⟩
  rw [has_recent_reply_fetched cexFetch 259200 wUrl "def" cexTree (by decide) rfl]
  simp [has_recent_reply_scan, check_replies, cexTree, ReplyTree.replies,
    check_replies_list, stepQ, bump, REPLY_WINDOW_HOURS]

/-- Witness for C4: cutoff 50, child at 10 (stale) and grandchild at 60
(recent): the scanner reports `(true, 60)`, the grandchild's timestamp. -/
theorem has_recent_reply_reports_max_witness :
    has_recent_reply wReplyFetch 259250 wUrl = (true, some 60) := by
  have hdt : descTimes wTree = [10, 60] := by
    simp [descTimes, wTree, ReplyTree.replies, allTimesList]
  refine has_recent_reply_reports_max wReplyFetch 259250 wUrl "def" wTree 60
    (by decide) rfl ?_ ?_ (by decide)
  · rw [hdt]
    decide
  · rw [hdt]
    decide
